import Mathlib

/-!
Verification of the fbtracert probe pipeline (src/main.go) against its
natural-language specification.  The Go source is shallowly embedded:
pure functions become Lean functions on Nat / Rat / List, the correlator
loop becomes a fold over an explicit event stream, machine integers are
Nat with explicit masks and mod 2^32 where overflow matters, and code
that can panic returns Option.  Definitions come first, then the lemmas
and the claim theorems.
-/

namespace Fbtracert

/-- Probe, as emitted by a sender (src/main.go, type Probe). -/
structure Probe where
  srcPort : Nat
  ttl : Nat
deriving DecidableEq, Repr

/-- ICMPResponse, as emitted by ICMPReceiver (src/main.go, type ICMPResponse).
The Go struct embeds Probe and carries the responding router address, its
DNS name and the estimated rtt (a uint32). Addresses are modelled as the
strings the Go code compares them by. -/
structure ICMPResponse where
  probe : Probe
  fromAddr : String
  fromName : String
  rtt : Nat
deriving DecidableEq, Repr

/-- TCPResponse, as emitted by TCPReceiver (src/main.go, type TCPResponse). -/
structure TCPResponse where
  probe : Probe
  rtt : Nat
deriving DecidableEq, Repr

/-!
Lossy-path classifier (src/main.go, func isLossy).

Hit rates are float64 ratios of small integers in the Go code; they are
modelled as rationals, which order the program's values the same way.

The Go function is a pair of nested loops:

  for i := 0; i < len(hitRates)-1 && !found; i++ {
      found = true
      segLen = len(hitRates) - i
      for j := i + 1; j < len(hitRates); j++ {
          if hitRates[j] >= hitRates[i] { found = false; break }
      }
  }
  if segLen > 2 { return found }
  return false

innerScan is the inner loop (scanning the suffix after index i), lossyScan
the outer loop; the fuel argument of lossyScan starts at the list length,
which bounds the number of outer iterations, so the fuelled recursion and
the Go loop compute the same result.
-/

/-- Inner loop of isLossy at pivot value x: false as soon as some later
sample is greater than or equal to x (hitRates[j] >= hitRates[i]). -/
def innerScan (x : ℚ) : List ℚ → Bool
  | [] => true
  | y :: ys => if x ≤ y then false else innerScan x ys

/-- Outer loop of isLossy: i is the loop counter, segLen the Go variable of
the same name; returns the final (found, segLen) pair. -/
def lossyScan (h : List ℚ) : Nat → Nat → Nat → Bool × Nat
  | 0, _, segLen => (false, segLen)
  | fuel + 1, i, segLen =>
    if i < h.length - 1 then
      if innerScan (h.getD i 0) (h.drop (i + 1)) then (true, h.length - i)
      else lossyScan h fuel (i + 1) (h.length - i)
    else (false, segLen)

/-- isLossy (src/main.go:462-480): run the scan from i = 0, then alarm only
when the recorded segment length exceeds 2. -/
def isLossy (h : List ℚ) : Bool :=
  if (lossyScan h h.length 0 0).2 > 2 then (lossyScan h h.length 0 0).1
  else false

/-- The specification predicate for one pivot index: every later sample is
strictly below the pivot. -/
def Dominates (h : List ℚ) (i : Nat) : Prop :=
  ∀ j, i < j → j < h.length → h.getD j 0 < h.getD i 0

/-!
Stamp scheme (src/main.go:405-406 sender side, 168-176 receiver side).
uint32 values are Nat below 2^32; uint32 subtraction is addition of the
complement followed by mod 2^32.
-/

/-- The sender's initial sequence number (src/main.go:405-406):
seqNum := ((uint32(ttl) & 0xff) << 24) | (now & 0x00ffffff), where now is
the millisecond clock.  The value always fits in 32 bits, so plain Nat bit
operations model the uint32 expression. -/
def senderISN (ttl nowMs : Nat) : Nat :=
  ((ttl &&& 0xff) <<< 24) ||| (nowMs &&& 0x00ffffff)

/-- The TCP receiver's stamp recovery (src/main.go:168-176):
ackNum := tcpHdr.AckNum - 1 in uint32 arithmetic, then
ttl := ackNum >> 24 and ts := ackNum & 0x00ffffff. -/
def decodeAck (ackRaw : Nat) : Nat × Nat :=
  (((ackRaw + (2 ^ 32 - 1)) % 2 ^ 32) >>> 24,
   ((ackRaw + (2 ^ 32 - 1)) % 2 ^ 32) &&& 0x00ffffff)

/-!
Receivers (src/main.go, TCPReceiver and ICMPReceiver).  The byte-level
socket reads and length checks are outside the embedded fragment; each
receiver is modelled by its per-packet processing of an already parsed
header, which is exactly the code of the receive loops.
-/

/-- TCP flag bits tested by the receiver.
Modelled from the spec: the RST and ACK constants live in the header codec
file, which is not under src/; they are the standard TCP flag bit masks. -/
def RST : Nat := 4

/-- See RST.
Modelled from the spec: standard TCP ACK flag bit mask. -/
def ACK : Nat := 16

/-- Result record of parseTCPHeader.
Modelled from the spec: parseTCPHeader (header codec, not under src/)
recovers source, destination, seq, ack and flags from the byte buffer;
only the record of recovered fields is modelled, since the receivers in
src/main.go consume exactly these fields. -/
structure TCPHeader where
  source : Nat
  destination : Nat
  seqNum : Nat
  ackNum : Nat
  flags : Nat
deriving DecidableEq, Repr

/-- One packet of TCPReceiver (src/main.go:130-186), after the length check
and header parse: the chain of filters and the response construction.
fromAddrStr is the string form of the packet source address, nowRaw the
receiver's millisecond clock.  In the branch that reaches the rtt
computation, ts has been checked to be at most now, so the uint32
subtraction now - ts equals the Nat subtraction. -/
def tcpReceiverStep (targetAddr : String) (targetPort maxTTL : Nat)
    (hdr : TCPHeader) (fromAddrStr : String) (nowRaw : Nat) :
    Option TCPResponse :=
  if hdr.source ≠ targetPort then none
  else if hdr.flags &&& RST ≠ RST ∧ hdr.flags &&& ACK ≠ ACK then none
  else if fromAddrStr ≠ targetAddr then none
  else if maxTTL < (decodeAck hdr.ackNum).1 ∨ (decodeAck hdr.ackNum).1 < 1
    then none
  else if nowRaw &&& 0x00ffffff < (decodeAck hdr.ackNum).2 then none
  else some { probe := { srcPort := hdr.destination,
                         ttl := (decodeAck hdr.ackNum).1 },
              rtt := (nowRaw &&& 0x00ffffff) - (decodeAck hdr.ackNum).2 }

/-- The fields of one ICMP packet that survive the byte-level length check
of ICMPReceiver: the ICMP type and code bytes, the embedded original TCP
header, and the outer source address. -/
structure ICMPPacket where
  msgType : Nat
  code : Nat
  innerTCP : TCPHeader
  fromAddr : String
deriving DecidableEq, Repr

/-- One packet of ICMPReceiver (src/main.go:245-278): the type/code filter,
stamp extraction from the embedded SeqNum, and the response construction.
The emitted record leaves fromName at the Go zero value, the empty string.
The rtt is the uint32 difference now - ts, which wraps modulo 2^32 when
ts exceeds now; no range or ordering check is applied here. -/
def icmpReceiverStep (icmpMsgType : Nat) (pkt : ICMPPacket)
    (nowRaw : Nat) : Option ICMPResponse :=
  if pkt.msgType ≠ icmpMsgType ∨ pkt.code ≠ 0 then none
  else some { probe := { srcPort := pkt.innerTCP.source,
                         ttl := pkt.innerTCP.seqNum >>> 24 },
              fromAddr := pkt.fromAddr, fromName := "",
              rtt := ((nowRaw &&& 0x00ffffff)
                + (2 ^ 32 - (pkt.innerTCP.seqNum &&& 0x00ffffff))) % 2 ^ 32 }

/-!
Resolver (src/main.go:302-324).
-/

/-- One stream record consumed by a resolver worker or by the correlator:
the Go interface value is either an ICMPResponse or a TCPResponse. -/
inductive RespEvent
  | icmp (r : ICMPResponse)
  | tcp (r : TCPResponse)
deriving DecidableEq, Repr

/-- One record processed by a Resolver worker (src/main.go:307-321), with
the net.LookupAddr outcome supplied as an oracle.  The Go code indexes
names[0] whenever the lookup returned no error, without checking for an
empty slice; the resulting panic on an empty successful result is
modelled as none. -/
def resolverStep (lookup : Except Unit (List String)) :
    RespEvent → Option RespEvent
  | RespEvent.icmp resp =>
    match lookup with
    | Except.error _ => some (RespEvent.icmp { resp with fromName := "?" })
    | Except.ok names =>
      match names with
      | [] => none
      | n :: _ => some (RespEvent.icmp { resp with fromName := n })
  | v => some v

/-!
Correlator (src/main.go:629-694).  The two consumer goroutines of main
update disjoint fields of the counters record; their interleaved
processing is modelled as a fold of one step function over the list of
records in processing order.  An arbitrary interleaving of probe records
and response records is a run of the program; nothing in the code orders
a response after the probe record it answers, because the sender
transmits the packet on the raw socket before publishing the probe
record, and drops the record entirely when its stop signal fires first.
-/

/-- One record consumed by the correlator: either a Probe from the merged
sender stream or a response from the merged resolver stream. -/
inductive Event
  | probe (p : Probe)
  | resp (r : RespEvent)
deriving DecidableEq, Repr

/-- counters.X[p][i]++ on a Go slice: set index i to its value plus one.
The Go code panics when the row is missing or the index is out of range;
List.set leaves the list unchanged in that case, and the theorems below
track the in-range conditions separately. -/
def incAt (l : List Nat) (i : Nat) : List Nat :=
  l.set i (l.getD i 0 + 1)

/-- The correlator state: the counters record (Sent / Rcvd / Paths maps as
total functions defaulting to the Go zero value, an empty slice), the
flapped-port set, the lastClosed watermark, and the list of senderDone
indices closed so far, in closing order. -/
structure CorrState where
  sent : Nat → List Nat
  rcvd : Nat → List Nat
  paths : Nat → List String
  flapped : Nat → Bool
  lastClosed : Nat
  closed : List Nat

/-- Initial state (src/main.go:629-640 and 661): rows for every source
port in [baseSrcPort, baseSrcPort + maxSrcPorts), sent and rcvd zeroed,
paths filled with "?", lastClosed = maxTTL, no channel closed. -/
def initCounters (baseSrcPort maxSrcPorts maxTTL : Nat) : CorrState where
  sent := fun p =>
    if baseSrcPort ≤ p ∧ p < baseSrcPort + maxSrcPorts
    then List.replicate maxTTL 0 else []
  rcvd := fun p =>
    if baseSrcPort ≤ p ∧ p < baseSrcPort + maxSrcPorts
    then List.replicate maxTTL 0 else []
  paths := fun p =>
    if baseSrcPort ≤ p ∧ p < baseSrcPort + maxSrcPorts
    then List.replicate maxTTL "?" else []
  flapped := fun _ => false
  lastClosed := maxTTL
  closed := []

/-- One step of the correlator (src/main.go:643-653 for probe records,
662-694 for response records).  A probe record increments
Sent[srcPort][ttl-1].  An ICMPResponse increments Rcvd[srcPort][ttl-1],
marks the port flapped when the previously recorded hop name is neither
"?" nor the new name, and stores the new name.  A TCPResponse closes
senderDone[i] for every i in [resp.ttl, lastClosed), lowers lastClosed to
resp.ttl when that is smaller, increments Rcvd and stores the target
name. -/
def stepEvent (target : String) (s : CorrState) : Event → CorrState
  | Event.probe pr =>
    { s with sent := fun q =>
        if q = pr.srcPort
        then incAt (s.sent pr.srcPort) (pr.ttl - 1) else s.sent q }
  | Event.resp (RespEvent.icmp resp) =>
    { s with
      rcvd := fun q =>
        if q = resp.probe.srcPort
        then incAt (s.rcvd resp.probe.srcPort) (resp.probe.ttl - 1)
        else s.rcvd q,
      flapped := fun q =>
        if q = resp.probe.srcPort
          ∧ (s.paths resp.probe.srcPort).getD (resp.probe.ttl - 1) "" ≠ "?"
          ∧ (s.paths resp.probe.srcPort).getD (resp.probe.ttl - 1) ""
            ≠ resp.fromName
        then true else s.flapped q,
      paths := fun q =>
        if q = resp.probe.srcPort
        then (s.paths resp.probe.srcPort).set (resp.probe.ttl - 1)
          resp.fromName
        else s.paths q }
  | Event.resp (RespEvent.tcp resp) =>
    { s with
      closed := s.closed
        ++ List.range' resp.probe.ttl (s.lastClosed - resp.probe.ttl),
      lastClosed :=
        if resp.probe.ttl < s.lastClosed then resp.probe.ttl
        else s.lastClosed,
      rcvd := fun q =>
        if q = resp.probe.srcPort
        then incAt (s.rcvd resp.probe.srcPort) (resp.probe.ttl - 1)
        else s.rcvd q,
      paths := fun q =>
        if q = resp.probe.srcPort
        then (s.paths resp.probe.srcPort).set (resp.probe.ttl - 1) target
        else s.paths q }

/-- The correlator run: fold the step over the processed records in
order. -/
def processEvents (target : String) : CorrState → List Event → CorrState
  | s, [] => s
  | s, e :: es => processEvents target (stepEvent target s e) es

/-- The probe identity inside a response record. -/
def respProbe : RespEvent → Probe
  | RespEvent.icmp r => r.probe
  | RespEvent.tcp r => r.probe

/-- Number of probe records at cell (p, t) in a stream, where t is the
slice index ttl - 1 used by the correlator. -/
def probeCount (p t : Nat) : List Event → Nat
  | [] => 0
  | Event.probe pr :: es =>
    (if pr.srcPort = p ∧ pr.ttl - 1 = t then 1 else 0) + probeCount p t es
  | _ :: es => probeCount p t es

/-- Number of response records (ICMP or TCP) at cell (p, t) in a
stream. -/
def respCount (p t : Nat) : List Event → Nat
  | [] => 0
  | Event.resp r :: es =>
    (if (respProbe r).srcPort = p ∧ (respProbe r).ttl - 1 = t then 1 else 0)
      + respCount p t es
  | _ :: es => respCount p t es

/-- The TTLs of the TCPResponse records of a stream, in order. -/
def tcpTTLs : List Event → List Nat
  | [] => []
  | Event.resp (RespEvent.tcp r) :: es => r.probe.ttl :: tcpTTLs es
  | _ :: es => tcpTTLs es

/-- Sent[p][t] with the Go zero value for a missing row or index. -/
def sentCell (s : CorrState) (p t : Nat) : Nat := (s.sent p).getD t 0

/-- Rcvd[p][t] with the Go zero value for a missing row or index. -/
def rcvdCell (s : CorrState) (p t : Nat) : Nat := (s.rcvd p).getD t 0

/-!
Path truncation after the response stream closes (src/main.go:696-706).
-/

/-- The truncation scan of main: find the first index i with
hopVector[i] equal to the target name and i < maxTTL - 1. -/
def truncScan (target : String) (maxTTL : Nat) :
    List String → Nat → Option Nat
  | [], _ => none
  | hop :: rest, i =>
    if hop = target ∧ i < maxTTL - 1 then some i
    else truncScan target maxTTL rest (i + 1)

/-- The per-port truncation of main (src/main.go:696-706).  When the scan
finds index i, the Sent and Rcvd rows are sliced to [:i+1]; the Go
statement hopVector = hopVector[:i+1] reassigns the loop-local slice
header of the range statement, so the Paths row in the counters record is
returned unchanged, exactly as in the source. -/
def truncatePort (target : String) (maxTTL : Nat)
    (sentRow rcvdRow : List Nat) (hops : List String) :
    List Nat × List Nat × List String :=
  match truncScan target maxTTL hops 0 with
  | some i => (sentRow.take (i + 1), rcvdRow.take (i + 1), hops)
  | none => (sentRow, rcvdRow, hops)

/-!
Lemmas and claim theorems.
-/

lemma innerScan_eq_true_iff (x : ℚ) :
    ∀ ys : List ℚ, innerScan x ys = true ↔ ∀ y ∈ ys, y < x := by
  intro ys
  induction ys with
  | nil => simp [innerScan]
  | cons y ys ih =>
    by_cases hxy : x ≤ y
    · simp only [innerScan, if_pos hxy]
      constructor
      · intro hfalse; cases hfalse
      · intro hall
        exact absurd (hall y (by simp)) (not_lt.mpr hxy)
    · simp only [innerScan, if_neg hxy, ih]
      constructor
      · intro hall y hy
        rcases List.mem_cons.mp hy with rfl | hy
        · exact lt_of_not_le hxy
        · exact hall y hy
      · intro hall y hy
        exact hall y (List.mem_cons_of_mem _ hy)

lemma innerScan_iff_dominates (h : List ℚ) (i : Nat) :
    innerScan (h.getD i 0) (h.drop (i + 1)) = true ↔ Dominates h i := by
  rw [innerScan_eq_true_iff]
  constructor
  · intro hall j hij hj
    have hidx : j - (i + 1) < (h.drop (i + 1)).length := by
      simp only [List.length_drop]; omega
    have hmem : h.getD j 0 ∈ h.drop (i + 1) := by
      have hget : (h.drop (i + 1)).get ⟨j - (i + 1), hidx⟩ = h.getD j 0 := by
        have hj' : i + 1 + (j - (i + 1)) < h.length := by omega
        simp only [List.get_eq_getElem, List.getElem_drop]
        rw [List.getD_eq_getElem h 0 (by omega : j < h.length)]
        congr 1
        omega
      rw [← hget]
      exact List.get_mem _ _ hidx
    exact hall _ hmem
  · intro hdom y hy
    rcases List.mem_iff_getElem.mp hy with ⟨k, hk, hval⟩
    have hk' : i + 1 + k < h.length := by
      have := hk
      simp only [List.length_drop] at this
      omega
    have hval2 : h.getD (i + 1 + k) 0 = y := by
      rw [List.getD_eq_getElem h 0 hk', ← hval]
      exact (List.getElem_drop h).symm
    have := hdom (i + 1 + k) (by omega) hk'
    rw [hval2] at this
    exact this

lemma lossyScan_fst_false (h : List ℚ) :
    ∀ fuel i segLen, h.length - 1 ≤ fuel + i →
      (∀ m, i ≤ m → m < h.length - 1 →
        innerScan (h.getD m 0) (h.drop (m + 1)) = false) →
      (lossyScan h fuel i segLen).1 = false := by
  intro fuel
  induction fuel with
  | zero =>
    intro i segLen _ _
    simp [lossyScan]
  | succ fuel ih =>
    intro i segLen hbound hnone
    by_cases hi : i < h.length - 1
    · have hinner := hnone i le_rfl hi
      simp only [lossyScan, if_pos hi, hinner]
      rw [if_neg (by simp)]
      exact ih (i + 1) (h.length - i) (by omega)
        (fun m hm hm2 => hnone m (by omega) hm2)
    · simp [lossyScan, if_neg hi]

lemma lossyScan_found (h : List ℚ) :
    ∀ fuel i segLen k, i ≤ k → k < h.length - 1 →
      innerScan (h.getD k 0) (h.drop (k + 1)) = true →
      (∀ m, i ≤ m → m < k →
        innerScan (h.getD m 0) (h.drop (m + 1)) = false) →
      h.length - 1 ≤ fuel + i →
      lossyScan h fuel i segLen = (true, h.length - k) := by
  intro fuel
  induction fuel with
  | zero =>
    intro i segLen k hik hk _ _ hbound
    omega
  | succ fuel ih =>
    intro i segLen k hik hk hdom hmin hbound
    have hi : i < h.length - 1 := by omega
    rcases Nat.eq_or_lt_of_le hik with rfl | hlt
    · simp only [lossyScan]
      rw [if_pos hi, if_pos hdom]
    · have hinner := hmin i le_rfl hlt
      simp only [lossyScan]
      rw [if_pos hi, if_neg (by rw [hinner]; simp)]
      exact ih (i + 1) (h.length - i) k (by omega) hk hdom
        (fun m hm hm2 => hmin m (by omega) hm2) (by omega)

/-- The outer scan from 0 stops at the first index passing the inner scan
and records its suffix length. -/
lemma lossyScan_eq_of_find (h : List ℚ)
    (hex : ∃ m, m < h.length - 1 ∧
      innerScan (h.getD m 0) (h.drop (m + 1)) = true) :
    lossyScan h h.length 0 0 = (true, h.length - Nat.find hex) := by
  classical
  apply lossyScan_found h h.length 0 0 (Nat.find hex) (Nat.zero_le _)
    (Nat.find_spec hex).1 (Nat.find_spec hex).2
  · intro m _ hmk
    have hnm := Nat.find_min hex hmk
    have hm1 : m < h.length - 1 := by
      have := (Nat.find_spec hex).1
      omega
    simp only [not_and] at hnm
    exact Bool.eq_false_iff.mpr (hnm hm1)
  · omega

/-- Claim C1: for every hit-rate vector h of length L, isLossy h is true
exactly when some index i strictly dominates every later index (an equality
h[j] = h[i] disqualifies i, since the inner comparison is strict) and the
suffix starting at i is longer than 2.  The Go loop stops at the first
dominating index, which has the longest suffix, so existence of any
qualifying index is equivalent to the first dominating index qualifying. -/
theorem c1_isLossy_iff_dominating_pivot (h : List ℚ) :
    isLossy h = true ↔
      ∃ i, 2 < h.length - i ∧
        ∀ j, i < j → j < h.length → h.getD j 0 < h.getD i 0 := by
  classical
  constructor
  · intro hlossy
    by_cases hex : ∃ m, m < h.length - 1 ∧
        innerScan (h.getD m 0) (h.drop (m + 1)) = true
    · have heval := lossyScan_eq_of_find h hex
      unfold isLossy at hlossy
      rw [heval] at hlossy
      dsimp only at hlossy
      by_cases hsl : 2 < h.length - Nat.find hex
      · exact ⟨Nat.find hex, hsl,
          (innerScan_iff_dominates h _).mp (Nat.find_spec hex).2⟩
      · rw [if_neg (by omega)] at hlossy
        cases hlossy
    · push_neg at hex
      have h1 : (lossyScan h h.length 0 0).1 = false :=
        lossyScan_fst_false h h.length 0 0 (by omega)
          (fun m _ hm => Bool.eq_false_iff.mpr (hex m hm))
      unfold isLossy at hlossy
      by_cases hsl : (lossyScan h h.length 0 0).2 > 2
      · rw [if_pos hsl] at hlossy
        rw [h1] at hlossy
        cases hlossy
      · rw [if_neg hsl] at hlossy
        cases hlossy
  · rintro ⟨i, hlen, hdom⟩
    have hi : i < h.length - 1 := by omega
    have hinner : innerScan (h.getD i 0) (h.drop (i + 1)) = true :=
      (innerScan_iff_dominates h i).mpr hdom
    have hex : ∃ m, m < h.length - 1 ∧
        innerScan (h.getD m 0) (h.drop (m + 1)) = true := ⟨i, hi, hinner⟩
    have hki : Nat.find hex ≤ i := Nat.find_min' hex ⟨hi, hinner⟩
    have heval := lossyScan_eq_of_find h hex
    unfold isLossy
    rw [heval]
    dsimp only
    rw [if_pos (by omega : h.length - Nat.find hex > 2)]

/-- Evaluation of isLossy on the hit-rate vector [0.8, 0.9, 0.1, 0.1]:
index 0 fails the inner scan (0.9 >= 0.8), index 1 passes it (both later
samples are below 0.9) with segment length 3 > 2, so the function
returns true. -/
lemma isLossy_ex_eval : isLossy [(0.8 : ℚ), 0.9, 0.1, 0.1] = true := by
  have e0 : ([(0.8 : ℚ), 0.9, 0.1, 0.1].getD 0 0) = (0.8 : ℚ) := rfl
  have e0d : [(0.8 : ℚ), 0.9, 0.1, 0.1].drop 1 = [(0.9 : ℚ), 0.1, 0.1] := rfl
  have e1 : ([(0.8 : ℚ), 0.9, 0.1, 0.1].getD 1 0) = (0.9 : ℚ) := rfl
  have e1d : [(0.8 : ℚ), 0.9, 0.1, 0.1].drop 2 = [(0.1 : ℚ), 0.1] := rfl
  have h0 : innerScan (0.8 : ℚ) [(0.9 : ℚ), 0.1, 0.1] = false := by
    norm_num [innerScan]
  have h1 : innerScan (0.9 : ℚ) [(0.1 : ℚ), 0.1] = true := by
    norm_num [innerScan]
  have hlen : ([(0.8 : ℚ), 0.9, 0.1, 0.1] : List ℚ).length = 4 := rfl
  have heval := lossyScan_found [(0.8 : ℚ), 0.9, 0.1, 0.1] 4 0 0 1
    (by omega) (by rw [hlen]; omega) (by rw [e1, e1d]; exact h1)
    (by
      intro m _ hm
      have hm0 : m = 0 := by omega
      subst hm0
      rw [e0, e0d]
      exact h0)
    (by rw [hlen]; omega)
  rw [hlen] at heval
  unfold isLossy
  rw [hlen, heval]
  norm_num

/-- Claim C2 counterexample: the spec asserts that
isLossy [0.8, 0.9, 0.1, 0.1] is false, but on the code the result is not
false: index 1 strictly dominates indices 2 and 3 and its suffix has
length 3. -/
theorem c2_counterexample :
    isLossy [(0.8 : ℚ), 0.9, 0.1, 0.1] ≠ false := by
  rw [isLossy_ex_eval]
  simp

/-- Claim C2, amended: isLossy applied to [0.8, 0.9, 0.1, 0.1] returns
true (the scan skips index 0, which is not dominating because 0.9 is at
least 0.8, and accepts index 1, whose hit rate 0.9 strictly exceeds the
0.1 of every later index, with segment length 3 > 2). -/
theorem c2_isLossy_example_true :
    isLossy [(0.8 : ℚ), 0.9, 0.1, 0.1] = true := isLossy_ex_eval

lemma and_mask8 (x : Nat) : x &&& 0xff = x % 2 ^ 8 := by
  have h : (0xff : Nat) = 2 ^ 8 - 1 := by norm_num
  rw [h, Nat.and_pow_two_sub_one_eq_mod]

lemma and_mask24 (x : Nat) : x &&& 0x00ffffff = x % 2 ^ 24 := by
  have h : (0x00ffffff : Nat) = 2 ^ 24 - 1 := by norm_num
  rw [h, Nat.and_pow_two_sub_one_eq_mod]

/-- Arithmetic form of the ISN: the masked ttl occupies the top byte and
the masked clock the low 24 bits. -/
lemma senderISN_eq (ttl nowMs : Nat) (httl : ttl ≤ 255) :
    senderISN ttl nowMs = ttl * 2 ^ 24 + nowMs % 2 ^ 24 := by
  unfold senderISN
  rw [and_mask8, and_mask24, Nat.shiftLeft_eq,
    Nat.mod_eq_of_lt (show ttl < 2 ^ 8 by omega)]
  have hb : nowMs % 2 ^ 24 < 2 ^ 24 := Nat.mod_lt nowMs (by norm_num)
  calc (ttl * 2 ^ 24) ||| (nowMs % 2 ^ 24)
      = (2 ^ 24 * ttl) ||| (nowMs % 2 ^ 24) := by rw [Nat.mul_comm]
    _ = 2 ^ 24 * ttl + nowMs % 2 ^ 24 := (Nat.mul_add_lt_is_or hb ttl).symm
    _ = ttl * 2 ^ 24 + nowMs % 2 ^ 24 := by rw [Nat.mul_comm]

lemma senderISN_lt (ttl nowMs : Nat) (httl : ttl ≤ 255) :
    senderISN ttl nowMs < 2 ^ 32 := by
  rw [senderISN_eq ttl nowMs httl]
  have hb : nowMs % 2 ^ 24 < 2 ^ 24 := Nat.mod_lt nowMs (by norm_num)
  have h1 : ttl * 2 ^ 24 ≤ 255 * 2 ^ 24 := Nat.mul_le_mul_right _ httl
  norm_num at h1 hb ⊢
  omega

/-- The top byte of the ISN is the ttl. -/
lemma senderISN_top_byte (ttl nowMs : Nat) (httl : ttl ≤ 255) :
    (senderISN ttl nowMs >>> 24) &&& 0xff = ttl := by
  rw [senderISN_eq ttl nowMs httl, Nat.shiftRight_eq_div_pow, and_mask8]
  have hb : nowMs % 2 ^ 24 < 2 ^ 24 := Nat.mod_lt nowMs (by norm_num)
  rw [show ttl * 2 ^ 24 = 2 ^ 24 * ttl from Nat.mul_comm _ _,
    Nat.mul_add_div (by norm_num), Nat.div_eq_of_lt hb, Nat.add_zero,
    Nat.mod_eq_of_lt (show ttl < 2 ^ 8 by omega)]

/-- The low 24 bits of the ISN are the masked clock. -/
lemma senderISN_low_bits (ttl nowMs : Nat) (httl : ttl ≤ 255) :
    senderISN ttl nowMs &&& 0x00ffffff = nowMs % 2 ^ 24 := by
  rw [senderISN_eq ttl nowMs httl, and_mask24,
    show ttl * 2 ^ 24 = 2 ^ 24 * ttl from Nat.mul_comm _ _,
    Nat.mul_add_mod]
  exact Nat.mod_mod_of_dvd nowMs (dvd_refl _)

/-- Decoding ackNum = ISN + 1 (in uint32) recovers the stamped pair. -/
lemma decodeAck_senderISN (ttl nowMs : Nat) (h1 : 1 ≤ ttl)
    (h2 : ttl ≤ 255) :
    decodeAck ((senderISN ttl nowMs + 1) % 2 ^ 32)
      = (ttl, nowMs % 2 ^ 24) := by
  have hs := senderISN_eq ttl nowMs h2
  have hlt := senderISN_lt ttl nowMs h2
  have hb : nowMs % 2 ^ 24 < 2 ^ 24 := Nat.mod_lt nowMs (by norm_num)
  have e32 : (2 : Nat) ^ 32 = 4294967296 := by norm_num
  have key : ((senderISN ttl nowMs + 1) % 2 ^ 32 + (2 ^ 32 - 1)) % 2 ^ 32
      = senderISN ttl nowMs := by
    rw [e32] at hlt ⊢
    omega
  unfold decodeAck
  rw [key, hs]
  have hfst : (ttl * 2 ^ 24 + nowMs % 2 ^ 24) >>> 24 = ttl := by
    rw [Nat.shiftRight_eq_div_pow,
      show ttl * 2 ^ 24 = 2 ^ 24 * ttl from Nat.mul_comm _ _,
      Nat.mul_add_div (by norm_num), Nat.div_eq_of_lt hb, Nat.add_zero]
  have hsnd : (ttl * 2 ^ 24 + nowMs % 2 ^ 24) &&& 0x00ffffff
      = nowMs % 2 ^ 24 := by
    rw [and_mask24,
      show ttl * 2 ^ 24 = 2 ^ 24 * ttl from Nat.mul_comm _ _,
      Nat.mul_add_mod]
    exact Nat.mod_mod_of_dvd nowMs (dvd_refl _)
  rw [hfst, hsnd]

/-- Claim C4: for every ttl in [1, 255] and every millisecond clock value,
the sender's ISN carries the ttl in its top 8 bits and the clock mod 2^24
in its low 24 bits, and the TCP receiver's decoding of ack = ISN + 1
(uint32 subtraction of 1, then top byte / low 24 bits) recovers exactly
the stamped pair, including across the uint32 wrap at ISN + 1 = 2^32. -/
theorem c4_stamp_roundtrip (ttl nowMs : Nat) (h1 : 1 ≤ ttl)
    (h2 : ttl ≤ 255) :
    (senderISN ttl nowMs >>> 24) &&& 0xff = ttl
    ∧ senderISN ttl nowMs &&& 0x00ffffff = nowMs &&& 0x00ffffff
    ∧ decodeAck ((senderISN ttl nowMs + 1) % 2 ^ 32)
      = (ttl, nowMs &&& 0x00ffffff) := by
  rw [and_mask24 nowMs]
  exact ⟨senderISN_top_byte ttl nowMs h2, senderISN_low_bits ttl nowMs h2,
    decodeAck_senderISN ttl nowMs h1 h2⟩

/-- Witness for C4 at ttl = 7, clock 123456789. -/
theorem c4_stamp_roundtrip_witness :
    (senderISN 7 123456789 >>> 24) &&& 0xff = 7
    ∧ senderISN 7 123456789 &&& 0x00ffffff = 123456789 &&& 0x00ffffff
    ∧ decodeAck ((senderISN 7 123456789 + 1) % 2 ^ 32)
      = (7, 123456789 &&& 0x00ffffff) :=
  c4_stamp_roundtrip 7 123456789 (by norm_num) (by norm_num)

/-- Claim C5 counterexample: a probe stamped at clock 0x00fffffe whose
response is processed at clock 0x01000002 (masked: 0x00000002).  The claim
says both receivers emit rtt = 4; instead the TCP receiver discards the
response (the recovered stamp 0x00fffffe exceeds the masked clock 2), and
the ICMP receiver emits the near-2^32 value 0xff000004. -/
theorem c5_counterexample :
    tcpReceiverStep "target" 22 30
      { source := 22, destination := 33000, seqNum := 0,
        ackNum := (senderISN 5 0x00fffffe + 1) % 2 ^ 32, flags := RST }
      "target" 0x01000002 = none
    ∧ Option.map ICMPResponse.rtt
        (icmpReceiverStep 11
          { msgType := 11, code := 0,
            innerTCP := { source := 33000, destination := 22,
                          seqNum := senderISN 5 0x00fffffe, ackNum := 0,
                          flags := 0 },
            fromAddr := "router" }
          0x01000002)
      = some 0xff000004
    ∧ (0xff000004 : Nat) ≠ 4 := by
  refine ⟨?_, ?_, by norm_num⟩ <;> decide

/-- Claim C5, amended: for every ttl in [1, 30] (the receiver's default
TTL window), a probe stamped at clock 0x00fffffe whose response is
processed at masked clock 2 is discarded by the TCP receiver (the
recovered stamp is greater than the masked clock), and the ICMP receiver
emits rtt = (now - ts) mod 2^32 = 0xff000004; neither receiver reduces the
difference modulo 2^24, so neither produces the rollover-corrected
value 4. -/
theorem c5_rollover_behaviour (ttl : Nat) (h1 : 1 ≤ ttl) (h2 : ttl ≤ 30) :
    tcpReceiverStep "target" 22 30
      { source := 22, destination := 33000, seqNum := 0,
        ackNum := (senderISN ttl 0x00fffffe + 1) % 2 ^ 32, flags := RST }
      "target" 0x01000002 = none
    ∧ Option.map ICMPResponse.rtt
        (icmpReceiverStep 11
          { msgType := 11, code := 0,
            innerTCP := { source := 33000, destination := 22,
                          seqNum := senderISN ttl 0x00fffffe, ackNum := 0,
                          flags := 0 },
            fromAddr := "router" }
          0x01000002)
      = some 0xff000004 := by
  interval_cases ttl <;> exact ⟨by decide, by decide⟩

/-- Witness for C5 at ttl = 5. -/
theorem c5_rollover_behaviour_witness :
    tcpReceiverStep "target" 22 30
      { source := 22, destination := 33000, seqNum := 0,
        ackNum := (senderISN 5 0x00fffffe + 1) % 2 ^ 32, flags := RST }
      "target" 0x01000002 = none
    ∧ Option.map ICMPResponse.rtt
        (icmpReceiverStep 11
          { msgType := 11, code := 0,
            innerTCP := { source := 33000, destination := 22,
                          seqNum := senderISN 5 0x00fffffe, ackNum := 0,
                          flags := 0 },
            fromAddr := "router" }
          0x01000002)
      = some 0xff000004 :=
  c5_rollover_behaviour 5 (by norm_num) (by norm_num)

/-- Claim C8 counterexample: with the default sweep
[32768, 32768 + 256), the TCP receiver emits a record whose src port 9999
is outside the sweep (the probePortStart and probePortEnd parameters are
never consulted), and the ICMP receiver emits a record with ttl = 0
outside [1, maxTTL] (it checks neither port nor ttl); such records index
a missing counter row or the invalid index ttl - 1 = -1 in the
correlator. -/
theorem c8_counterexample :
    tcpReceiverStep "target" 22 30
      { source := 22, destination := 9999, seqNum := 0,
        ackNum := senderISN 5 0 + 1, flags := RST } "target" 1000
      = some { probe := { srcPort := 9999, ttl := 5 }, rtt := 1000 }
    ∧ ¬ (32768 ≤ 9999 ∧ 9999 < 32768 + 256)
    ∧ icmpReceiverStep 11
        { msgType := 11, code := 0,
          innerTCP := { source := 40000, destination := 22, seqNum := 0,
                        ackNum := 0, flags := 0 },
          fromAddr := "router" } 1000
      = some { probe := { srcPort := 40000, ttl := 0 },
               fromAddr := "router", fromName := "", rtt := 1000 }
    ∧ ¬ (1 ≤ (0 : Nat)) := by
  refine ⟨by decide, by norm_num, by decide, by norm_num⟩

/-- Claim C8, amended: every record the TCP receiver emits has
ttl in [1, maxTTL]; neither receiver constrains the src port to
[base_src_port, base_src_port + max_src_ports), and the ICMP receiver
constrains neither the src port nor the ttl, so validity of the
correlator's counter accesses is not guaranteed by the receivers. -/
theorem c8_tcp_ttl_in_range (targetAddr : String) (targetPort maxTTL : Nat)
    (hdr : TCPHeader) (fromAddrStr : String) (nowRaw : Nat)
    (r : TCPResponse)
    (hr : tcpReceiverStep targetAddr targetPort maxTTL hdr fromAddrStr
      nowRaw = some r) :
    1 ≤ r.probe.ttl ∧ r.probe.ttl ≤ maxTTL := by
  unfold tcpReceiverStep at hr
  split at hr
  · cases hr
  · split at hr
    · cases hr
    · split at hr
      · cases hr
      · split at hr
        · cases hr
        · split at hr
          · cases hr
          · rename_i hrange _
            have := Option.some.inj hr
            subst this
            dsimp only
            omega

/-- Witness for the amended C8 at a concrete accepted packet. -/
theorem c8_tcp_ttl_in_range_witness :
    1 ≤ ({ probe := { srcPort := 9999, ttl := 5 },
           rtt := 1000 } : TCPResponse).probe.ttl
    ∧ ({ probe := { srcPort := 9999, ttl := 5 },
         rtt := 1000 } : TCPResponse).probe.ttl ≤ 30 :=
  c8_tcp_ttl_in_range "target" 22 30
    { source := 22, destination := 9999, seqNum := 0,
      ackNum := senderISN 5 0 + 1, flags := RST } "target" 1000
    { probe := { srcPort := 9999, ttl := 5 }, rtt := 1000 } (by decide)

/-- Claim C10 counterexample: on a successful reverse lookup that returns
an empty name list, the worker does not emit the record with
fromName = "?" as claimed; it crashes on names[0] (modelled as none). -/
theorem c10_counterexample :
    resolverStep (Except.ok [])
      (RespEvent.icmp { probe := { srcPort := 33000, ttl := 3 },
                        fromAddr := "10.0.0.9", fromName := "", rtt := 7 })
      = none := rfl

/-- Claim C10, amended: a resolver worker emits an ICMPResponse with
fromName = "?" when the lookup returns an error, and with the first
returned name when the lookup succeeds with a non-empty list; it passes
every non-ICMP record through unchanged; but a successful lookup with an
empty name list makes the worker panic on names[0] instead of emitting
the record. -/
theorem c10_resolver_behaviour :
    (∀ (e : Unit) (r : ICMPResponse),
      resolverStep (Except.error e) (RespEvent.icmp r)
        = some (RespEvent.icmp { r with fromName := "?" }))
    ∧ (∀ (n : String) (ns : List String) (r : ICMPResponse),
      resolverStep (Except.ok (n :: ns)) (RespEvent.icmp r)
        = some (RespEvent.icmp { r with fromName := n }))
    ∧ (∀ (lookup : Except Unit (List String)) (t : TCPResponse),
      resolverStep lookup (RespEvent.tcp t) = some (RespEvent.tcp t))
    ∧ (∀ (r : ICMPResponse),
      resolverStep (Except.ok []) (RespEvent.icmp r) = none) := by
  refine ⟨fun e r => rfl, fun n ns r => rfl, fun lookup t => rfl,
    fun r => rfl⟩

lemma length_incAt (l : List Nat) (i : Nat) :
    (incAt l i).length = l.length := by
  unfold incAt
  exact List.length_set l i _

lemma incAt_getD_self (l : List Nat) (i : Nat) (hi : i < l.length) :
    (incAt l i).getD i 0 = l.getD i 0 + 1 := by
  unfold incAt
  rw [List.getD_eq_getElem _ _ (by simpa using hi)]
  simp

lemma incAt_getD_ne (l : List Nat) (i j : Nat) (hij : j ≠ i) :
    (incAt l i).getD j 0 = l.getD j 0 := by
  unfold incAt
  rw [List.getD_eq_getElem?_getD, List.getElem?_set_ne (by omega : i ≠ j),
    List.getD_eq_getElem?_getD]

lemma stepEvent_sent_length (tg : String) (s : CorrState) (e : Event)
    (p : Nat) :
    ((stepEvent tg s e).sent p).length = (s.sent p).length := by
  cases e with
  | probe pr =>
    by_cases hp : p = pr.srcPort
    · subst hp; simp [stepEvent, length_incAt]
    · simp [stepEvent, hp]
  | resp r => cases r <;> rfl

lemma stepEvent_rcvd_length (tg : String) (s : CorrState) (e : Event)
    (p : Nat) :
    ((stepEvent tg s e).rcvd p).length = (s.rcvd p).length := by
  cases e with
  | probe pr => rfl
  | resp r =>
    cases r with
    | icmp resp =>
      by_cases hp : p = resp.probe.srcPort
      · subst hp; simp [stepEvent, length_incAt]
      · simp [stepEvent, hp]
    | tcp resp =>
      by_cases hp : p = resp.probe.srcPort
      · subst hp; simp [stepEvent, length_incAt]
      · simp [stepEvent, hp]

lemma stepEvent_sentCell_probe (tg : String) (s : CorrState) (pr : Probe)
    (p t : Nat) (ht : t < (s.sent p).length) :
    sentCell (stepEvent tg s (Event.probe pr)) p t
      = sentCell s p t
        + (if pr.srcPort = p ∧ pr.ttl - 1 = t then 1 else 0) := by
  unfold sentCell stepEvent
  dsimp only
  by_cases hp : p = pr.srcPort
  · subst hp
    rw [if_pos rfl]
    by_cases htt : pr.ttl - 1 = t
    · subst htt
      rw [incAt_getD_self _ _ ht, if_pos ⟨rfl, rfl⟩]
    · rw [incAt_getD_ne _ _ _ (fun hh => htt hh.symm),
        if_neg (fun hh => htt hh.2), Nat.add_zero]
  · rw [if_neg hp, if_neg (fun hh => hp hh.1.symm), Nat.add_zero]

lemma stepEvent_sentCell_resp (tg : String) (s : CorrState) (r : RespEvent)
    (p t : Nat) :
    sentCell (stepEvent tg s (Event.resp r)) p t = sentCell s p t := by
  cases r <;> rfl

lemma stepEvent_rcvdCell_resp (tg : String) (s : CorrState) (r : RespEvent)
    (p t : Nat) (ht : t < (s.rcvd p).length) :
    rcvdCell (stepEvent tg s (Event.resp r)) p t
      = rcvdCell s p t
        + (if (respProbe r).srcPort = p ∧ (respProbe r).ttl - 1 = t
           then 1 else 0) := by
  cases r with
  | icmp resp =>
    unfold rcvdCell stepEvent respProbe
    dsimp only
    by_cases hp : p = resp.probe.srcPort
    · subst hp
      rw [if_pos rfl]
      by_cases htt : resp.probe.ttl - 1 = t
      · subst htt
        rw [incAt_getD_self _ _ ht, if_pos ⟨rfl, rfl⟩]
      · rw [incAt_getD_ne _ _ _ (fun hh => htt hh.symm),
          if_neg (fun hh => htt hh.2), Nat.add_zero]
    · rw [if_neg hp, if_neg (fun hh => hp hh.1.symm), Nat.add_zero]
  | tcp resp =>
    unfold rcvdCell stepEvent respProbe
    dsimp only
    by_cases hp : p = resp.probe.srcPort
    · subst hp
      rw [if_pos rfl]
      by_cases htt : resp.probe.ttl - 1 = t
      · subst htt
        rw [incAt_getD_self _ _ ht, if_pos ⟨rfl, rfl⟩]
      · rw [incAt_getD_ne _ _ _ (fun hh => htt hh.symm),
          if_neg (fun hh => htt hh.2), Nat.add_zero]
    · rw [if_neg hp, if_neg (fun hh => hp hh.1.symm), Nat.add_zero]

lemma stepEvent_rcvdCell_probe (tg : String) (s : CorrState) (pr : Probe)
    (p t : Nat) :
    rcvdCell (stepEvent tg s (Event.probe pr)) p t = rcvdCell s p t := rfl

lemma processEvents_sentCell (tg : String) (es : List Event) :
    ∀ s p t, t < (s.sent p).length →
      sentCell (processEvents tg s es) p t
        = sentCell s p t + probeCount p t es := by
  induction es with
  | nil =>
    intro s p t _
    simp [processEvents, probeCount]
  | cons e es ih =>
    intro s p t ht
    have ht' : t < ((stepEvent tg s e).sent p).length := by
      rw [stepEvent_sent_length]; exact ht
    rw [show processEvents tg s (e :: es)
        = processEvents tg (stepEvent tg s e) es from rfl,
      ih _ p t ht']
    cases e with
    | probe pr =>
      rw [stepEvent_sentCell_probe tg s pr p t ht]
      simp only [probeCount]
      omega
    | resp r =>
      rw [stepEvent_sentCell_resp]
      cases r <;> simp [probeCount]

lemma processEvents_rcvdCell (tg : String) (es : List Event) :
    ∀ s p t, t < (s.rcvd p).length →
      rcvdCell (processEvents tg s es) p t
        = rcvdCell s p t + respCount p t es := by
  induction es with
  | nil =>
    intro s p t _
    simp [processEvents, respCount]
  | cons e es ih =>
    intro s p t ht
    have ht' : t < ((stepEvent tg s e).rcvd p).length := by
      rw [stepEvent_rcvd_length]; exact ht
    rw [show processEvents tg s (e :: es)
        = processEvents tg (stepEvent tg s e) es from rfl,
      ih _ p t ht']
    cases e with
    | probe pr =>
      rw [stepEvent_rcvdCell_probe]
      simp [respCount]
    | resp r =>
      rw [stepEvent_rcvdCell_resp tg s r p t ht]
      simp only [respCount]
      omega

/-- Claim C3 counterexample: the invariant Rcvd at most Sent does not
hold at every point of every run.  In the run that processes one
TCPResponse at (port 32768, ttl 1) before any probe record, Rcvd of
that cell is 1 while Sent is 0.  Such a run is reachable: the sender
transmits each packet on the raw socket before publishing the probe
record, and a sender stopped at the select drops the record entirely,
while the response to the already transmitted packet is still counted. -/
theorem c3_counterexample :
    rcvdCell (processEvents "target" (initCounters 32768 1 3)
        [Event.resp (RespEvent.tcp
          { probe := { srcPort := 32768, ttl := 1 }, rtt := 0 })])
      32768 0
    > sentCell (processEvents "target" (initCounters 32768 1 3)
        [Event.resp (RespEvent.tcp
          { probe := { srcPort := 32768, ttl := 1 }, rtt := 0 })])
      32768 0 := by decide

/-- Claim C3, amended: for every source port of the sweep and TTL index,
Rcvd[p][t] equals the number of response records processed at (p, t) and
Sent[p][t] the number of probe records processed at (p, t) (so both
counters are nonnegative); whenever the responses processed do not
outnumber the probe records processed, 0 <= Rcvd[p][t] <= Sent[p][t]
holds.  The program itself does not force that ordering, as the
counterexample run shows. -/
theorem c3_rcvd_le_sent (tg : String) (base m mt : Nat) (es : List Event)
    (p t : Nat) (hp1 : base ≤ p) (hp2 : p < base + m) (ht : t < mt)
    (hcnt : respCount p t es ≤ probeCount p t es) :
    rcvdCell (processEvents tg (initCounters base m mt) es) p t
      = respCount p t es
    ∧ sentCell (processEvents tg (initCounters base m mt) es) p t
      = probeCount p t es
    ∧ rcvdCell (processEvents tg (initCounters base m mt) es) p t
      ≤ sentCell (processEvents tg (initCounters base m mt) es) p t := by
  have hrow1 : ((initCounters base m mt).sent p).length = mt := by
    simp [initCounters, hp1, hp2]
  have hrow2 : ((initCounters base m mt).rcvd p).length = mt := by
    simp [initCounters, hp1, hp2]
  have hz1 : sentCell (initCounters base m mt) p t = 0 := by
    simp [sentCell, initCounters, hp1, hp2]
  have hz2 : rcvdCell (initCounters base m mt) p t = 0 := by
    simp [rcvdCell, initCounters, hp1, hp2]
  have hs := processEvents_sentCell tg es (initCounters base m mt) p t
    (by omega)
  have hr := processEvents_rcvdCell tg es (initCounters base m mt) p t
    (by omega)
  rw [hz1] at hs
  rw [hz2] at hr
  refine ⟨by omega, by omega, by omega⟩

/-- Witness for the amended C3: one probe record then one matching
TCPResponse at (32768, ttl 1). -/
theorem c3_rcvd_le_sent_witness :
    rcvdCell (processEvents "target" (initCounters 32768 1 3)
        [Event.probe { srcPort := 32768, ttl := 1 },
         Event.resp (RespEvent.tcp
           { probe := { srcPort := 32768, ttl := 1 }, rtt := 0 })])
      32768 0
    ≤ sentCell (processEvents "target" (initCounters 32768 1 3)
        [Event.probe { srcPort := 32768, ttl := 1 },
         Event.resp (RespEvent.tcp
           { probe := { srcPort := 32768, ttl := 1 }, rtt := 0 })])
      32768 0 :=
  (c3_rcvd_le_sent "target" 32768 1 3
    [Event.probe { srcPort := 32768, ttl := 1 },
     Event.resp (RespEvent.tcp
       { probe := { srcPort := 32768, ttl := 1 }, rtt := 0 })]
    32768 0 (by norm_num) (by norm_num) (by norm_num) (by decide)).2.2

lemma processEvents_append (tg : String) :
    ∀ (es1 es2 : List Event) (s : CorrState),
      processEvents tg s (es1 ++ es2)
        = processEvents tg (processEvents tg s es1) es2 := by
  intro es1
  induction es1 with
  | nil => intro es2 s; rfl
  | cons e es ih => intro es2 s; exact ih es2 (stepEvent tg s e)

lemma tcpTTLs_append :
    ∀ es1 es2 : List Event,
      tcpTTLs (es1 ++ es2) = tcpTTLs es1 ++ tcpTTLs es2 := by
  intro es1
  induction es1 with
  | nil => intro es2; rfl
  | cons e es ih =>
    intro es2
    cases e with
    | probe pr => exact ih es2
    | resp r =>
      cases r with
      | icmp resp => exact ih es2
      | tcp resp =>
        show resp.probe.ttl :: tcpTTLs (es ++ es2)
          = (resp.probe.ttl :: tcpTTLs es) ++ tcpTTLs es2
        rw [List.cons_append, ih es2]

lemma processEvents_lastClosed (tg : String) (es : List Event) :
    ∀ s : CorrState,
      (processEvents tg s es).lastClosed
        = (tcpTTLs es).foldl min s.lastClosed := by
  induction es with
  | nil => intro s; rfl
  | cons e es ih =>
    intro s
    cases e with
    | probe pr =>
      rw [show processEvents tg s (Event.probe pr :: es)
          = processEvents tg (stepEvent tg s (Event.probe pr)) es from rfl,
        ih]
      rfl
    | resp r =>
      cases r with
      | icmp resp =>
        rw [show processEvents tg s (Event.resp (RespEvent.icmp resp) :: es)
            = processEvents tg
              (stepEvent tg s (Event.resp (RespEvent.icmp resp))) es
              from rfl,
          ih]
        rfl
      | tcp resp =>
        rw [show processEvents tg s (Event.resp (RespEvent.tcp resp) :: es)
            = processEvents tg
              (stepEvent tg s (Event.resp (RespEvent.tcp resp))) es
              from rfl,
          ih]
        show (tcpTTLs es).foldl min
            (if resp.probe.ttl < s.lastClosed then resp.probe.ttl
             else s.lastClosed)
          = (resp.probe.ttl :: tcpTTLs es).foldl min s.lastClosed
        rw [List.foldl_cons]
        congr 1
        rcases Nat.lt_or_ge resp.probe.ttl s.lastClosed with hc | hc
        · rw [if_pos hc]; omega
        · rw [if_neg (by omega)]; omega

lemma foldl_min_le_init (l : List Nat) : ∀ d : Nat, l.foldl min d ≤ d := by
  induction l with
  | nil => intro d; exact le_refl d
  | cons x l ih =>
    intro d
    exact le_trans (ih (min d x)) (min_le_left d x)

lemma foldl_min_le_mem (l : List Nat) :
    ∀ d k, k ∈ l → l.foldl min d ≤ k := by
  induction l with
  | nil => intro d k hk; cases hk
  | cons x l ih =>
    intro d k hk
    rcases List.mem_cons.mp hk with rfl | hk
    · exact le_trans (foldl_min_le_init l (min d k)) (min_le_right d k)
    · exact ih (min d x) k hk

lemma foldl_min_mem_or_init (l : List Nat) :
    ∀ d : Nat, l.foldl min d = d ∨ l.foldl min d ∈ l := by
  induction l with
  | nil => intro d; exact Or.inl rfl
  | cons x l ih =>
    intro d
    rcases ih (min d x) with h | h
    · rw [List.foldl_cons, h]
      rcases Nat.le_total d x with hdx | hxd
      · exact Or.inl (min_eq_left hdx)
      · right
        rw [min_eq_right hxd]
        exact List.mem_cons_self x l
    · right
      rw [List.foldl_cons]
      exact List.mem_cons_of_mem x h

lemma foldl_min_is_min (l : List Nat) (d : Nat) (hne : l ≠ [])
    (hall : ∀ k ∈ l, k ≤ d) :
    l.foldl min d ∈ l ∧ ∀ k ∈ l, l.foldl min d ≤ k := by
  refine ⟨?_, fun k hk => foldl_min_le_mem l d k hk⟩
  rcases foldl_min_mem_or_init l d with h | h
  · rcases l with _ | ⟨x, l⟩
    · exact absurd rfl hne
    · have h1 : (x :: l).foldl min d ≤ x :=
        foldl_min_le_mem _ _ x (List.mem_cons_self x l)
      have h2 : x ≤ d := hall x (List.mem_cons_self x l)
      rw [h] at h1 ⊢
      have hxd : x = d := le_antisymm h2 h1
      rw [← hxd]
      exact List.mem_cons_self x l
  · exact h

lemma closed_invariant (tg : String) (es : List Event) :
    ∀ s : CorrState, s.closed.Nodup →
      (∀ i ∈ s.closed, s.lastClosed ≤ i) →
      (processEvents tg s es).closed.Nodup
      ∧ ∀ i ∈ (processEvents tg s es).closed,
          (processEvents tg s es).lastClosed ≤ i := by
  induction es with
  | nil => intro s h1 h2; exact ⟨h1, h2⟩
  | cons e es ih =>
    intro s h1 h2
    cases e with
    | probe pr => exact ih _ h1 h2
    | resp r =>
      cases r with
      | icmp resp => exact ih _ h1 h2
      | tcp resp =>
        apply ih
        · show (s.closed ++ List.range' resp.probe.ttl
            (s.lastClosed - resp.probe.ttl)).Nodup
          rw [List.nodup_append]
          refine ⟨h1, List.nodup_range' _ _, ?_⟩
          intro a ha hb
          rw [List.mem_range'] at hb
          obtain ⟨j, hj, rfl⟩ := hb
          have := h2 _ ha
          omega
        · show ∀ i ∈ s.closed ++ List.range' resp.probe.ttl
            (s.lastClosed - resp.probe.ttl),
            (if resp.probe.ttl < s.lastClosed then resp.probe.ttl
             else s.lastClosed) ≤ i
          intro i hi
          rw [List.mem_append] at hi
          rcases hi with hi | hi
          · have := h2 i hi
            rcases Nat.lt_or_ge resp.probe.ttl s.lastClosed with hc | hc
            · rw [if_pos hc]; omega
            · rw [if_neg (by omega)]; omega
          · rw [List.mem_range'] at hi
            obtain ⟨j, hj, rfl⟩ := hi
            rcases Nat.lt_or_ge resp.probe.ttl s.lastClosed with hc | hc
            · rw [if_pos hc]; omega
            · rw [if_neg (by omega)]; omega

lemma processEvents_closed_mem (tg : String) (es : List Event) :
    ∀ (s : CorrState) (i : Nat),
      i ∈ (processEvents tg s es).closed ↔
        i ∈ s.closed ∨ (i < s.lastClosed ∧ ∃ k ∈ tcpTTLs es, k ≤ i) := by
  induction es with
  | nil =>
    intro s i
    show i ∈ s.closed ↔ i ∈ s.closed ∨ (i < s.lastClosed ∧ ∃ k ∈ ([] : List Nat), k ≤ i)
    simp
  | cons e es ih =>
    intro s i
    cases e with
    | probe pr =>
      rw [show processEvents tg s (Event.probe pr :: es)
          = processEvents tg (stepEvent tg s (Event.probe pr)) es from rfl,
        ih]
      exact Iff.rfl
    | resp r =>
      cases r with
      | icmp resp =>
        rw [show processEvents tg s (Event.resp (RespEvent.icmp resp) :: es)
            = processEvents tg
              (stepEvent tg s (Event.resp (RespEvent.icmp resp))) es
              from rfl,
          ih]
        exact Iff.rfl
      | tcp resp =>
        rw [show processEvents tg s (Event.resp (RespEvent.tcp resp) :: es)
            = processEvents tg
              (stepEvent tg s (Event.resp (RespEvent.tcp resp))) es
              from rfl,
          ih]
        show i ∈ s.closed ++ List.range' resp.probe.ttl
            (s.lastClosed - resp.probe.ttl)
          ∨ (i < (if resp.probe.ttl < s.lastClosed then resp.probe.ttl
                  else s.lastClosed)
             ∧ ∃ k ∈ tcpTTLs es, k ≤ i)
          ↔ i ∈ s.closed
            ∨ (i < s.lastClosed
               ∧ ∃ k ∈ resp.probe.ttl :: tcpTTLs es, k ≤ i)
        constructor
        · rintro (hmem | ⟨hlt, k, hk, hki⟩)
          · rw [List.mem_append] at hmem
            rcases hmem with hmem | hmem
            · exact Or.inl hmem
            · rw [List.mem_range'] at hmem
              obtain ⟨j, hj, rfl⟩ := hmem
              exact Or.inr ⟨by omega,
                resp.probe.ttl, List.mem_cons_self _ _, by omega⟩
          · refine Or.inr ⟨?_, k, List.mem_cons_of_mem _ hk, hki⟩
            rcases Nat.lt_or_ge resp.probe.ttl s.lastClosed with hc | hc
            · rw [if_pos hc] at hlt; omega
            · rwa [if_neg (by omega)] at hlt
        · rintro (hmem | ⟨hlt, k, hk, hki⟩)
          · exact Or.inl (List.mem_append.mpr (Or.inl hmem))
          · rcases List.mem_cons.mp hk with rfl | hk
            · left
              apply List.mem_append.mpr
              right
              rw [List.mem_range']
              exact ⟨i - resp.probe.ttl, by omega, by omega⟩
            · rcases Nat.lt_or_ge i (if resp.probe.ttl < s.lastClosed
                then resp.probe.ttl else s.lastClosed) with hc | hc
              · exact Or.inr ⟨hc, k, hk, hki⟩
              · left
                apply List.mem_append.mpr
                right
                rw [List.mem_range']
                rcases Nat.lt_or_ge resp.probe.ttl s.lastClosed
                  with hc2 | hc2
                · rw [if_pos hc2] at hc
                  exact ⟨i - resp.probe.ttl, by omega, by omega⟩
                · rw [if_neg (by omega)] at hc
                  omega

/-- Claim C6: over any correlator run es = pre ++ suf in which every
TCPResponse TTL is at most maxTTL (the TCP receiver only emits such
records): lastClosed starts at maxTTL, never increases as processing
proceeds, after the prefix it equals the minimum TCPResponse TTL seen so
far (when one was seen), every senderDone index is closed at most once
over the whole run, and processing a TCPResponse whose ttl is at least
the current lastClosed closes no channel. -/
theorem c6_lastClosed_watermark (tg : String) (base m mt : Nat)
    (pre suf : List Event)
    (hall : ∀ k ∈ tcpTTLs (pre ++ suf), k ≤ mt) :
    (initCounters base m mt).lastClosed = mt
    ∧ (processEvents tg (initCounters base m mt) (pre ++ suf)).lastClosed
      ≤ (processEvents tg (initCounters base m mt) pre).lastClosed
    ∧ (tcpTTLs pre ≠ [] →
        (processEvents tg (initCounters base m mt) pre).lastClosed
          ∈ tcpTTLs pre
        ∧ ∀ k ∈ tcpTTLs pre,
            (processEvents tg (initCounters base m mt) pre).lastClosed ≤ k)
    ∧ (processEvents tg (initCounters base m mt) (pre ++ suf)).closed.Nodup
    ∧ (∀ (r : TCPResponse) (s : CorrState),
        s.lastClosed ≤ r.probe.ttl →
        (stepEvent tg s (Event.resp (RespEvent.tcp r))).closed
          = s.closed) := by
  have hinit : (initCounters base m mt).lastClosed = mt := rfl
  have hpre := processEvents_lastClosed tg pre (initCounters base m mt)
  have hfull := processEvents_lastClosed tg (pre ++ suf)
    (initCounters base m mt)
  rw [hinit] at hpre hfull
  refine ⟨rfl, ?_, ?_, ?_, ?_⟩
  · rw [hpre, hfull, tcpTTLs_append, List.foldl_append]
    exact foldl_min_le_init _ _
  · intro hne
    rw [hpre]
    exact foldl_min_is_min (tcpTTLs pre) mt hne
      (fun k hk => hall k (by rw [tcpTTLs_append]
                              exact List.mem_append.mpr (Or.inl hk)))
  · exact (closed_invariant tg (pre ++ suf) (initCounters base m mt)
      List.nodup_nil (fun i hi => absurd hi (List.not_mem_nil i))).1
  · intro r s hle
    show s.closed ++ List.range' r.probe.ttl (s.lastClosed - r.probe.ttl)
      = s.closed
    rw [Nat.sub_eq_zero_of_le hle]
    simp

/-- Witness for C6: run [tcp ttl 2] ++ [tcp ttl 2] with maxTTL = 3. -/
theorem c6_lastClosed_watermark_witness :
    (initCounters 1 1 3).lastClosed = 3
    ∧ (processEvents "target" (initCounters 1 1 3)
        ([Event.resp (RespEvent.tcp
            { probe := { srcPort := 1, ttl := 2 }, rtt := 0 })]
         ++ [Event.resp (RespEvent.tcp
            { probe := { srcPort := 1, ttl := 2 }, rtt := 0 })])).lastClosed
      ≤ (processEvents "target" (initCounters 1 1 3)
          [Event.resp (RespEvent.tcp
            { probe := { srcPort := 1, ttl := 2 }, rtt := 0 })]).lastClosed
    ∧ (tcpTTLs [Event.resp (RespEvent.tcp
          { probe := { srcPort := 1, ttl := 2 }, rtt := 0 })] ≠ [] →
        (processEvents "target" (initCounters 1 1 3)
          [Event.resp (RespEvent.tcp
            { probe := { srcPort := 1, ttl := 2 }, rtt := 0 })]).lastClosed
          ∈ tcpTTLs [Event.resp (RespEvent.tcp
            { probe := { srcPort := 1, ttl := 2 }, rtt := 0 })]
        ∧ ∀ k ∈ tcpTTLs [Event.resp (RespEvent.tcp
            { probe := { srcPort := 1, ttl := 2 }, rtt := 0 })],
            (processEvents "target" (initCounters 1 1 3)
              [Event.resp (RespEvent.tcp
                { probe := { srcPort := 1, ttl := 2 },
                  rtt := 0 })]).lastClosed ≤ k)
    ∧ (processEvents "target" (initCounters 1 1 3)
        ([Event.resp (RespEvent.tcp
            { probe := { srcPort := 1, ttl := 2 }, rtt := 0 })]
         ++ [Event.resp (RespEvent.tcp
            { probe := { srcPort := 1, ttl := 2 },
              rtt := 0 })])).closed.Nodup
    ∧ (∀ (r : TCPResponse) (s : CorrState),
        s.lastClosed ≤ r.probe.ttl →
        (stepEvent "target" s (Event.resp (RespEvent.tcp r))).closed
          = s.closed) :=
  c6_lastClosed_watermark "target" 1 1 3
    [Event.resp (RespEvent.tcp
      { probe := { srcPort := 1, ttl := 2 }, rtt := 0 })]
    [Event.resp (RespEvent.tcp
      { probe := { srcPort := 1, ttl := 2 }, rtt := 0 })]
    (by decide)

/-- Claim C9 counterexample: with maxTTL = 3 and minTTL = 1, processing a
single TCPResponse at TTL 2 closes only senderDone[2], the stop channel
of the sender for TTL 3.  The channel senderDone[1] of the sender for
TTL 2 itself, which the claim says is stopped by a response at an equal
TTL, is never closed, not even at the end of the run. -/
theorem c9_counterexample :
    (processEvents "target" (initCounters 1 1 3)
      [Event.resp (RespEvent.tcp
        { probe := { srcPort := 1, ttl := 2 }, rtt := 0 })]).closed = [2]
    ∧ (1 : Nat) ∉ (processEvents "target" (initCounters 1 1 3)
      [Event.resp (RespEvent.tcp
        { probe := { srcPort := 1, ttl := 2 }, rtt := 0 })]).closed := by
  refine ⟨by decide, by decide⟩

/-- Claim C9, amended: over a whole run, senderDone[i] (the stop channel
of the sender probing TTL i+1) is closed, at most once, exactly when
i < maxTTL and some TCPResponse with TTL at most i was processed; that
is, the sender for TTL t is stopped exactly by the first response at a
TTL strictly below t, a response at TTL k leaves the sender for TTL k
running, and no channel is closed at the end of the run. -/
theorem c9_closed_characterisation (tg : String) (base m mt : Nat)
    (es : List Event) (i : Nat) :
    (i ∈ (processEvents tg (initCounters base m mt) es).closed ↔
      i < mt ∧ ∃ k ∈ tcpTTLs es, k ≤ i)
    ∧ (processEvents tg (initCounters base m mt) es).closed.Nodup := by
  constructor
  · rw [processEvents_closed_mem]
    show i ∈ ([] : List Nat) ∨ (i < mt ∧ ∃ k ∈ tcpTTLs es, k ≤ i) ↔ _
    simp
  · exact (closed_invariant tg es (initCounters base m mt)
      List.nodup_nil (fun j hj => absurd hj (List.not_mem_nil j))).1

/-- Claim C7 (code bug): at the failing input maxTTL = 3, target name T,
path row [T, ?, ?], sent [5, 0, 0], rcvd [3, 0, 0], the truncation step
slices Sent and Rcvd to length 1 but returns the Paths row whole: the Go
statement hopVector = hopVector[:i+1] writes to the loop-local slice
header of the range statement, never to counters.Paths, so afterwards
the three vectors do not have equal length and the target name does not
sit at the last position of the path row. -/
theorem c7_truncation_keeps_paths_row :
    truncatePort "T" 3 [5, 0, 0] [3, 0, 0] ["T", "?", "?"]
      = ([5], [3], ["T", "?", "?"])
    ∧ (truncatePort "T" 3 [5, 0, 0] [3, 0, 0] ["T", "?", "?"]).2.2.length
      ≠ (truncatePort "T" 3 [5, 0, 0] [3, 0, 0] ["T", "?", "?"]).1.length
    ∧ (truncatePort "T" 3 [5, 0, 0] [3, 0, 0]
        ["T", "?", "?"]).2.2.getD 0 "" = "T" := by
  refine ⟨by decide, by decide, by decide⟩

end Fbtracert
